import Mathlib

/-!
Verification of the `fenics_mpm` material point method driver
(`fenics_mpm/model.py`, class `Model`).

The Python layer orchestrates a native engine (`mpm_module`, not part of
the Python sources).  The per-step stage sequence, the time-stepping
loop, the component indices used in every grid field exchange and the
Python-level read-backs are embedded directly from `model.py`; the
numerical kernels that live only in the native engine (deformation
gradient, volume, grid-to-particle transfer, advection kinematics) are
modelled from the specification, and each such definition says so in its
doc comment.
-/

/-- The stages executed by one iteration of the `while` loop in
`Model.mpm` (model.py lines 538-576), in source order.  `saveState`
stands for the four `save_pvd` calls, `advanceTime` for `t += self.dt`. -/
inductive Stage where
  | formulateBasis
  | p2gMass
  | p2gVelocity
  | initTensors
  | initDensity
  | initVolume
  | gridForces
  | gridAccel
  | gridVelocity
  | velocityGradient
  | defGradUpdate
  | volumeUpdate
  | stressUpdate
  | saveState
  | advect
  | advanceTime
deriving DecidableEq, Repr

/-- The body of the `while t <= t_end` loop of `Model.mpm`, transcribed
from model.py lines 543-576: basis functions, P2G mass, P2G velocity,
then (only when `t == t_start`) `initialize_material_tensors`,
`calculate_material_density`, `calculate_material_initial_volume`,
then grid forces, grid acceleration, grid velocity, velocity gradient,
deformation gradient, volume, stress, the `save_pvd` block, particle
advection, and finally `t += self.dt`. -/
def stepStages (isInit : Bool) : List Stage :=
  [Stage.formulateBasis, Stage.p2gMass, Stage.p2gVelocity] ++
  (if isInit then [Stage.initTensors, Stage.initDensity, Stage.initVolume]
   else []) ++
  [Stage.gridForces, Stage.gridAccel, Stage.gridVelocity,
   Stage.velocityGradient, Stage.defGradUpdate, Stage.volumeUpdate,
   Stage.stressUpdate, Stage.saveState, Stage.advect, Stage.advanceTime]

/-- The time update of `Model.mpm` (model.py line 576: `t += self.dt`). -/
def timeStep (dt t : ℚ) : ℚ := t + dt

/-- The loop counter value of `t` at the start of iteration `k` of
`Model.mpm`: `t` is initialised to `t_start` (line 527) and increased by
`dt` at the end of every iteration (line 576). -/
def timeAt (tstart dt : ℚ) (k : ℕ) : ℚ := (timeStep dt)^[k] tstart

/-- The loop guard of `Model.mpm` (model.py line 538: `while t <= t_end`). -/
def loopGuard (tEnd t : ℚ) : Bool := decide (t ≤ tEnd)

/-- The guard of the initialization block (model.py line 548:
`if t == t_start`). -/
def initCond (tstart dt : ℚ) (k : ℕ) : Bool :=
  decide (timeAt tstart dt k = tstart)

/-- Iteration `k` of the loop in `Model.mpm` executes: the guard held at
every iteration up to and including `k`. -/
def stepExecutes (tstart tEnd dt : ℚ) (k : ℕ) : Prop :=
  ∀ j, j ≤ k → loopGuard tEnd (timeAt tstart dt j) = true

/-- The loop of `Model.mpm` terminates: its guard eventually fails. -/
def MPMTerminates (tstart tEnd dt : ℚ) : Prop :=
  ∃ k, loopGuard tEnd (timeAt tstart dt k) = false

theorem timeAt_eq (tstart dt : ℚ) (k : ℕ) :
    timeAt tstart dt k = tstart + k * dt := by
  induction k with
  | zero => simp [timeAt]
  | succ n ih =>
    have h : timeAt tstart dt (n + 1) = timeStep dt (timeAt tstart dt n) :=
      Function.iterate_succ_apply' (timeStep dt) n tstart
    rw [h, ih, timeStep]
    push_cast
    ring

theorem loopGuard_true_iff (tEnd t : ℚ) : loopGuard tEnd t = true ↔ t ≤ tEnd := by
  simp [loopGuard]

theorem loopGuard_false_iff (tEnd t : ℚ) : loopGuard tEnd t = false ↔ tEnd < t := by
  simp [loopGuard]

theorem stepExecutes_iff (tstart tEnd dt : ℚ) (hdt : 0 < dt) (k : ℕ) :
    stepExecutes tstart tEnd dt k ↔ tstart + k * dt ≤ tEnd := by
  constructor
  · intro h
    have hk := h k le_rfl
    rw [loopGuard_true_iff, timeAt_eq] at hk
    exact hk
  · intro h j hj
    rw [loopGuard_true_iff, timeAt_eq]
    have hcast : (j : ℚ) ≤ (k : ℚ) := by exact_mod_cast hj
    have hmul : (j : ℚ) * dt ≤ (k : ℚ) * dt :=
      mul_le_mul_of_nonneg_right hcast hdt.le
    linarith

theorem terminates_of_pos (tstart tEnd dt : ℚ) (hdt : 0 < dt) :
    MPMTerminates tstart tEnd dt := by
  obtain ⟨k, hk⟩ := exists_nat_gt ((tEnd - tstart) / dt)
  refine ⟨k, ?_⟩
  rw [loopGuard_false_iff, timeAt_eq]
  have h1 : tEnd - tstart < k * dt := by
    have := (div_lt_iff₀ hdt).mp hk
    linarith
  linarith

/-- A 2-by-2 tensor with rational entries, the shape used for `dF`, `F`,
`grad_u`, `epsilon` and `sigma` of a particle in the two-dimensional
model (`Model.__init__` fixes the coordinate array to `[1,1,0]`). -/
@[ext] structure Mat2 where
  xx : ℚ
  xy : ℚ
  yx : ℚ
  yy : ℚ
deriving DecidableEq, Repr

def Mat2.det (A : Mat2) : ℚ := A.xx * A.yy - A.xy * A.yx

/-- Element-wise (Hadamard) product, the composition used by
`update_material_deformation_gradient`. -/
def Mat2.hadamard (A B : Mat2) : Mat2 :=
  ⟨A.xx * B.xx, A.xy * B.xy, A.yx * B.yx, A.yy * B.yy⟩

/-- Standard matrix product, the conventional continuum-mechanics
composition of deformation gradients. -/
def Mat2.mul (A B : Mat2) : Mat2 :=
  ⟨A.xx * B.xx + A.xy * B.yx, A.xx * B.xy + A.xy * B.yy,
   A.yx * B.xx + A.yy * B.yx, A.yx * B.xy + A.yy * B.yy⟩

def Mat2.add (A B : Mat2) : Mat2 :=
  ⟨A.xx + B.xx, A.xy + B.xy, A.yx + B.yx, A.yy + B.yy⟩

def Mat2.smul (c : ℚ) (A : Mat2) : Mat2 :=
  ⟨c * A.xx, c * A.xy, c * A.yx, c * A.yy⟩

def Mat2.one : Mat2 := ⟨1, 0, 0, 1⟩

def Mat2.zero : Mat2 := ⟨0, 0, 0, 0⟩

theorem Mat2.det_mul (A B : Mat2) : (Mat2.mul A B).det = A.det * B.det := by
  simp only [Mat2.mul, Mat2.det]
  ring

/-- The incremental deformation gradient `dF = I + dt * grad_u`
(docstrings of `initialize_material_tensors` and
`update_material_deformation_gradient` in model.py). -/
def dFof (dt : ℚ) (gradu : Mat2) : Mat2 := Mat2.add Mat2.one (Mat2.smul dt gradu)

/-- The constitutive state of one particle that
`update_material_deformation_gradient` / `update_material_volume` act on. -/
structure PartState where
  dF : Mat2
  F : Mat2
  V : ℚ
deriving DecidableEq, Repr

/-- Modelled from the spec: `initializeTensors()` (init-only) sets
`dF_p = I + dt * grad_u_p` and `F_p = dF_p` (native engine routine
`initialize_material_tensors`; the driver stores `V_p = V0_p` in the
same initialization block via `calculate_material_initial_volume`). -/
def initTensorState (dt : ℚ) (g0 : Mat2) (V0 : ℚ) : PartState :=
  { dF := dFof dt g0, F := dFof dt g0, V := V0 }

/-- Modelled from the spec: `updateDeformationGradient()` sets
`dF_p = I + dt * grad_u_p` and composes `F_p^t = dF_p ∘ F_p^(t-1)`
element-wise (Hadamard), as documented for
`update_material_deformation_gradient`. -/
def updateDefGrad (dt : ℚ) (g : Mat2) (p : PartState) : PartState :=
  { p with dF := dFof dt g, F := (dFof dt g).hadamard p.F }

/-- Modelled from the spec: `updateVolume()` sets
`V_p^t = det(dF_p) * V_p^(t-1)`, as documented for
`update_material_volume`. -/
def updateVol (p : PartState) : PartState :=
  { p with V := p.dF.det * p.V }

/-- One regular step of the constitutive pipeline in the order of
`Model.mpm`: deformation-gradient update, then volume update. -/
def constitStep (dt : ℚ) (p : PartState) (g : Mat2) : PartState :=
  updateVol (updateDefGrad dt g p)

/-- The constitutive state after the initialization step with velocity
gradient `g0` followed by one regular update per entry of `gs` (the
velocity gradient seen at that step), with Hadamard composition of `F`
as in the code. -/
def constitutiveRun (dt V0 : ℚ) (g0 : Mat2) (gs : List Mat2) : PartState :=
  gs.foldl (constitStep dt) (initTensorState dt g0 V0)

/-- Variant of `updateDefGrad` that composes `F` with the standard
matrix product, the conventional form named by the spec as the
alternative to the element-wise composition. -/
def updateDefGradMatProd (dt : ℚ) (g : Mat2) (p : PartState) : PartState :=
  { p with dF := dFof dt g, F := (dFof dt g).mul p.F }

def constitStepMatProd (dt : ℚ) (p : PartState) (g : Mat2) : PartState :=
  updateVol (updateDefGradMatProd dt g p)

/-- As `constitutiveRun`, but with the standard matrix product
composing `F`. -/
def constitutiveRunMatProd (dt V0 : ℚ) (g0 : Mat2) (gs : List Mat2) : PartState :=
  gs.foldl (constitStepMatProd dt) (initTensorState dt g0 V0)

theorem constitStep_V (dt : ℚ) (p : PartState) (g : Mat2) :
    (constitStep dt p g).V = (dFof dt g).det * p.V := rfl

theorem foldl_constitStep_V (dt : ℚ) (gs : List Mat2) (p : PartState) :
    (gs.foldl (constitStep dt) p).V =
      p.V * (gs.map (fun g => (dFof dt g).det)).prod := by
  induction gs generalizing p with
  | nil => simp
  | cons g gs ih =>
    rw [List.foldl_cons, ih, constitStep_V]
    simp only [List.map_cons, List.prod_cons]
    ring

theorem foldl_constitStepMatProd_inv (dt V0 : ℚ) (gs : List Mat2) (p : PartState)
    (h : p.V = p.F.det * V0) :
    (gs.foldl (constitStepMatProd dt) p).V =
      (gs.foldl (constitStepMatProd dt) p).F.det * V0 := by
  induction gs generalizing p with
  | nil => exact h
  | cons g gs ih =>
    rw [List.foldl_cons]
    apply ih
    show (dFof dt g).det * p.V = ((dFof dt g).mul p.F).det * V0
    rw [h, Mat2.det_mul]
    ring

theorem dFof_zero (dt : ℚ) : dFof dt Mat2.zero = Mat2.one := by
  ext <;> simp [dFof, Mat2.zero, Mat2.one, Mat2.add, Mat2.smul]

/-- A planar vector with rational entries (the two components the model
exchanges). -/
@[ext] structure Vec2 where
  x : ℚ
  y : ℚ
deriving DecidableEq, Repr

def Vec2.add (a b : Vec2) : Vec2 := ⟨a.x + b.x, a.y + b.y⟩

def Vec2.smul (c : ℚ) (a : Vec2) : Vec2 := ⟨c * a.x, c * a.y⟩

def Vec2.zero : Vec2 := ⟨0, 0⟩

/-- Sum of `f 0, ..., f (n-1)`. -/
def vsum (n : ℕ) (f : ℕ → Vec2) : Vec2 :=
  (List.range n).foldl (fun acc i => acc.add (f i)) Vec2.zero

/-- Modelled from the spec: grid-to-particle velocity transfer
`u*_p = sum_i phi_(p,i) u_i`, with no mass weighting (native engine
routine behind `interpolate_grid_velocity_to_material`). -/
def interpGridVel (nn : ℕ) (phi : ℕ → ℚ) (uG : ℕ → Vec2) : Vec2 :=
  vsum nn (fun i => Vec2.smul (phi i) (uG i))

/-- Modelled from the spec: grid-to-particle acceleration transfer
`a_p = sum_i phi_(p,i) a_i`, with no mass weighting (native engine
routine behind `interpolate_grid_acceleration_to_material`). -/
def interpGridAccel (nn : ℕ) (phi : ℕ → ℚ) (aG : ℕ → Vec2) : Vec2 :=
  vsum nn (fun i => Vec2.smul (phi i) (aG i))

/-- The kinematic state of one particle that advection acts on. -/
structure Particle where
  x : Vec2
  u : Vec2
  uStar : Vec2
  a : Vec2
deriving DecidableEq, Repr

/-- The particle-side effect of `Model.interpolate_grid_velocity_to_material`
(model.py lines 202-227): store the interpolated grid velocity in
`M.u_star`. -/
def interpGridVelToMaterial (nn : ℕ) (phi : ℕ → ℚ) (uG : ℕ → Vec2)
    (p : Particle) : Particle :=
  { p with uStar := interpGridVel nn phi uG }

/-- Modelled from the spec: the native `advect_material_particles`
routine interpolates the grid acceleration to the particle
(`a_p = sum_i phi_(p,i) a_i`) and advances
`u_p^t = u_p^(t-1) + a_p * dt` and `x_p^t = x_p^(t-1) + u*_p * dt`. -/
def nativeAdvect (dt : ℚ) (nn : ℕ) (phi : ℕ → ℚ) (aG : ℕ → Vec2)
    (p : Particle) : Particle :=
  let aP := interpGridAccel nn phi aG
  { p with a := aP,
           u := p.u.add (Vec2.smul dt aP),
           x := p.x.add (Vec2.smul dt p.uStar) }

/-- `Model.advect_material_particles` (model.py lines 457-486): first
`interpolate_grid_velocity_to_material`, then the native advection. -/
def advectMaterialParticles (dt : ℚ) (nn : ℕ) (phi : ℕ → ℚ)
    (uG aG : ℕ → Vec2) (p : Particle) : Particle :=
  nativeAdvect dt nn phi aG (interpGridVelToMaterial nn phi uG p)

/-- The volume fields of the native material object. -/
structure VolState where
  V : ℚ
  V0 : ℚ
deriving DecidableEq, Repr

/-- The volume fields of the Python `Material` object. -/
structure PyVolFields where
  V : ℚ
  V0 : ℚ
deriving DecidableEq, Repr

/-- Modelled from the spec: `calculateInitialVolume()` (init-only) sets
`V_p = m_p / rho_p` and `V0_p = V_p` (native engine routine
`calculate_material_initial_volume`). -/
def nativeCalcInitialVolume (m rho : ℚ) : VolState :=
  { V := m / rho, V0 := m / rho }

/-- The read-back in `Model.calculate_material_initial_volume`
(model.py lines 169-172): `M.V0 = cpp.get_V()` and `M.V = cpp.get_V0()`. -/
def readBackVolume (s : VolState) : PyVolFields :=
  { V0 := s.V, V := s.V0 }

/-- `Model.calculate_material_initial_volume` (model.py lines 154-173):
run the native initial-volume routine, then read the fields back into
the Python material. -/
def calcMaterialInitialVolume (m rho : ℚ) : PyVolFields :=
  readBackVolume (nativeCalcInitialVolume m rho)

/-- Run a list of fallible stages in order, stopping at the first error:
the shallow embedding of straight-line Python calls under exception
propagation (`Model.mpm` installs no handler, so an exception raised in
a stage leaves the remaining calls unexecuted and reaches the caller). -/
def runStages {σ ε : Type} : List (σ → Except ε σ) → σ → Except ε σ
  | [], s => Except.ok s
  | f :: fs, s =>
    match f s with
    | Except.ok s1 => runStages fs s1
    | Except.error e => Except.error e

theorem runStages_error_of {σ ε : Type} (l1 : List (σ → Except ε σ))
    (f : σ → Except ε σ) (l2 : List (σ → Except ε σ)) (s s1 : σ) (e : ε)
    (h1 : runStages l1 s = Except.ok s1) (h2 : f s1 = Except.error e) :
    runStages (l1 ++ f :: l2) s = Except.error e := by
  induction l1 generalizing s with
  | nil =>
    simp only [runStages] at h1
    cases h1
    simp only [List.nil_append, runStages, h2]
  | cons a l1 ih =>
    simp only [runStages] at h1
    simp only [List.cons_append, runStages]
    cases ha : a s with
    | ok t =>
      rw [ha] at h1
      exact ih t h1
    | error e2 =>
      rw [ha] at h1
      cases h1

/-- The grid vector fields the driver exchanges with the grid model. -/
inductive FieldKind where
  | velocity
  | acceleration
  | internalForce
deriving DecidableEq, Repr

/-- One component access of a grid vector field performed by the driver. -/
structure Access where
  field : FieldKind
  comp : ℕ
deriving DecidableEq, Repr

/-- Components exchanged by `Model.interpolate_material_velocity_to_grid`
(model.py lines 125-126: `get_U3(0)`, `get_U3(1)`). -/
def p2gVelocityAccesses : List Access :=
  [⟨FieldKind.velocity, 0⟩, ⟨FieldKind.velocity, 1⟩]

/-- Components exchanged by `Model.calculate_grid_internal_forces`
(model.py lines 407-408: `get_f_int(0)`, `get_f_int(1)`). -/
def gridForceAccesses : List Access :=
  [⟨FieldKind.internalForce, 0⟩, ⟨FieldKind.internalForce, 1⟩]

/-- Components exchanged by `Model.update_grid_velocity`
(model.py lines 428-429: `get_U3(0)`, `get_U3(1)`). -/
def gridVelocityAccesses : List Access :=
  [⟨FieldKind.velocity, 0⟩, ⟨FieldKind.velocity, 1⟩]

/-- Components exchanged by `Model.calculate_grid_acceleration`
(model.py lines 453-454: `get_a3(0)`, `get_a3(1)`). -/
def gridAccelAccesses : List Access :=
  [⟨FieldKind.acceleration, 0⟩, ⟨FieldKind.acceleration, 1⟩]

/-- All grid vector-field exchanges performed by the driver. -/
def modelExchanges : List (List Access) :=
  [p2gVelocityAccesses, gridForceAccesses, gridVelocityAccesses,
   gridAccelAccesses]

/-- The dimensionality flag passed to the native model at construction
(model.py line 44: `np.array([1,1,0], dtype=intc)`). -/
def modelCoordArr : List ℤ := [1, 1, 0]

/-- C1: the claim fails on the code.  With the element-wise (Hadamard)
composition of `F` the determinant is not multiplicative, so the
incrementally updated volume need not equal `det(F) * V0`: after the
initialization step and one regular step, both with velocity gradient
all-ones and `dt = 1`, the incremental volume is `3` while
`det(F) * V0 = 15`. -/
theorem C1_volume_counterexample :
    (constitutiveRun 1 1 ⟨1, 1, 1, 1⟩ [⟨1, 1, 1, 1⟩]).V ≠
      (constitutiveRun 1 1 ⟨1, 1, 1, 1⟩ [⟨1, 1, 1, 1⟩]).F.det * 1 := by
  simp only [constitutiveRun, List.foldl_cons, List.foldl_nil, constitStep,
    initTensorState, updateDefGrad, updateVol, dFof, Mat2.add, Mat2.smul,
    Mat2.one, Mat2.hadamard, Mat2.det]
  norm_num

/-- C1 (amended): after any number of steps the incrementally updated
volume equals the running product of `det(dF)` applied to the initial
volume; and the additional identity `V = det(F) * V0` holds when the
initialization velocity gradient is zero and `F` is composed with the
standard matrix product instead of the element-wise product. -/
theorem C1_volume_product (dt V0 : ℚ) (g0 : Mat2) (gs : List Mat2) :
    (constitutiveRun dt V0 g0 gs).V =
      V0 * (gs.map (fun g => (dFof dt g).det)).prod
    ∧ (g0 = Mat2.zero →
        (constitutiveRunMatProd dt V0 g0 gs).V =
          (constitutiveRunMatProd dt V0 g0 gs).F.det * V0) := by
  constructor
  · rw [constitutiveRun, foldl_constitStep_V]
    rfl
  · intro h0
    rw [constitutiveRunMatProd]
    apply foldl_constitStepMatProd_inv
    show V0 = (dFof dt g0).det * V0
    rw [h0, dFof_zero]
    simp [Mat2.one, Mat2.det]

/-- C1 witness: the amended statement evaluated at `dt = 1`, `V0 = 2`,
zero initialization gradient and one regular step. -/
theorem C1_volume_product_witness :
    (constitutiveRun 1 2 Mat2.zero [⟨1, 1, 1, 1⟩]).V =
      2 * ([(⟨1, 1, 1, 1⟩ : Mat2)].map (fun g => (dFof 1 g).det)).prod
    ∧ (constitutiveRunMatProd 1 2 Mat2.zero [⟨1, 1, 1, 1⟩]).V =
        (constitutiveRunMatProd 1 2 Mat2.zero [⟨1, 1, 1, 1⟩]).F.det * 2 :=
  ⟨(C1_volume_product 1 2 Mat2.zero [⟨1, 1, 1, 1⟩]).1,
   (C1_volume_product 1 2 Mat2.zero [⟨1, 1, 1, 1⟩]).2 rfl⟩

/-- C2: the claim fails on the code.  In the initialization block of
`Model.mpm` (model.py lines 548-551) `initialize_material_tensors` runs
first, so density calculation does not precede tensor initialization as
the claim states. -/
theorem C2_init_order_counterexample :
    ¬ ((stepStages true).indexOf Stage.initDensity <
        (stepStages true).indexOf Stage.initTensors) := by
  decide

/-- C2 (amended): on the initialization step, after P2G mass and
velocity transfer and before grid internal forces, the sub-stages run
in the order tensor initialization, then density, then initial volume;
none of the three appears on a non-initialization step. -/
theorem C2_init_order :
    (stepStages true).indexOf Stage.p2gVelocity <
      (stepStages true).indexOf Stage.initTensors
    ∧ (stepStages true).indexOf Stage.initTensors <
        (stepStages true).indexOf Stage.initDensity
    ∧ (stepStages true).indexOf Stage.initDensity <
        (stepStages true).indexOf Stage.initVolume
    ∧ (stepStages true).indexOf Stage.initVolume <
        (stepStages true).indexOf Stage.gridForces
    ∧ Stage.initTensors ∈ stepStages true
    ∧ Stage.initDensity ∈ stepStages true
    ∧ Stage.initVolume ∈ stepStages true
    ∧ Stage.initTensors ∉ stepStages false
    ∧ Stage.initDensity ∉ stepStages false
    ∧ Stage.initVolume ∉ stepStages false := by
  decide

/-- C3: `Model.advect_material_particles` first interpolates the grid
velocity to the particles and the native advection interpolates the
grid acceleration, then advances `u_p = u_p + a_p * dt` with the
interpolated acceleration and `x_p = x_p + u*_p * dt` with the
interpolated velocity; the advection stage is part of every step. -/
theorem C3_advect_interpolation (dt : ℚ) (nn : ℕ) (phi : ℕ → ℚ)
    (uG aG : ℕ → Vec2) (p : Particle) :
    (advectMaterialParticles dt nn phi uG aG p).a = interpGridAccel nn phi aG
    ∧ (advectMaterialParticles dt nn phi uG aG p).uStar =
        interpGridVel nn phi uG
    ∧ (advectMaterialParticles dt nn phi uG aG p).u =
        p.u.add (Vec2.smul dt (interpGridAccel nn phi aG))
    ∧ (advectMaterialParticles dt nn phi uG aG p).x =
        p.x.add (Vec2.smul dt (interpGridVel nn phi uG))
    ∧ Stage.advect ∈ stepStages true ∧ Stage.advect ∈ stepStages false :=
  ⟨rfl, rfl, rfl, rfl, by decide, by decide⟩

/-- C4: after the init-only initial-volume calculation the Python
material's current volume equals `m_p / rho_p` and its reference volume
equals that same current volume. -/
theorem C4_initial_volume (m rho : ℚ) :
    (calcMaterialInitialVolume m rho).V = m / rho
    ∧ (calcMaterialInitialVolume m rho).V0 =
        (calcMaterialInitialVolume m rho).V :=
  ⟨rfl, rfl⟩

/-- C5: the claim fails on the code.  In `Model.mpm` the `save_pvd`
block (model.py lines 562-566) precedes both `advect_material_particles`
(line 573) and `t += self.dt` (line 576), so the snapshot is not emitted
after advection, nor after the time advance. -/
theorem C5_snapshot_counterexample :
    ¬ ((stepStages true).indexOf Stage.advect <
        (stepStages true).indexOf Stage.saveState)
    ∧ ¬ ((stepStages true).indexOf Stage.advanceTime <
          (stepStages true).indexOf Stage.saveState) := by
  decide

/-- C5 (amended): within every step the state snapshot is emitted after
the stress update and before particle advection, and the time variable
is advanced after advection. -/
theorem C5_snapshot_position :
    ∀ b : Bool,
      (stepStages b).indexOf Stage.stressUpdate <
        (stepStages b).indexOf Stage.saveState
      ∧ (stepStages b).indexOf Stage.saveState <
          (stepStages b).indexOf Stage.advect
      ∧ (stepStages b).indexOf Stage.advect <
          (stepStages b).indexOf Stage.advanceTime := by
  decide

/-- C6: with `dt > 0` and `t_start <= t_end`, the initialization block
of `Model.mpm` (density and reference volume) runs on iteration `k`
exactly when `k = 0`, and the density and initial-volume stages appear
only in the initialization step's stage list. -/
theorem C6_density_volume_once (tstart tEnd dt : ℚ) (hdt : 0 < dt)
    (hle : tstart ≤ tEnd) :
    (∀ k : ℕ,
      (stepExecutes tstart tEnd dt k ∧ initCond tstart dt k = true) ↔ k = 0)
    ∧ Stage.initDensity ∈ stepStages true
    ∧ Stage.initVolume ∈ stepStages true
    ∧ Stage.initDensity ∉ stepStages false
    ∧ Stage.initVolume ∉ stepStages false := by
  refine ⟨fun k => ⟨?_, ?_⟩, by decide, by decide, by decide, by decide⟩
  · rintro ⟨hexec, hcond⟩
    simp only [initCond, decide_eq_true_eq] at hcond
    rw [timeAt_eq] at hcond
    have hk : (k : ℚ) * dt = 0 := by linarith
    rcases mul_eq_zero.mp hk with h | h
    · exact_mod_cast h
    · exact absurd h hdt.ne'
  · rintro rfl
    constructor
    · intro j hj
      have hj0 : j = 0 := Nat.le_zero.mp hj
      subst hj0
      rw [loopGuard_true_iff, timeAt_eq]
      push_cast
      linarith
    · simp [initCond, timeAt]

/-- C6 witness: at `t_start = 0`, `t_end = 1`, `dt = 1` the hypotheses
hold and the initialization block runs exactly on iteration zero. -/
theorem C6_density_volume_once_witness :
    (0 : ℚ) < 1 ∧ (0 : ℚ) ≤ 1
    ∧ (∀ k : ℕ, (stepExecutes 0 1 1 k ∧ initCond 0 1 k = true) ↔ k = 0) :=
  ⟨by norm_num, by norm_num,
   (C6_density_volume_once 0 1 1 (by norm_num) (by norm_num)).1⟩

/-- C7: with `dt > 0`, iteration `k` of the loop in `Model.mpm` executes
exactly when `t_start + k * dt <= t_end`; `t` advances by `dt` after each
step; when `t_start <= t_end` at least the first step executes; the loop
terminates; and the guard fails at iteration `k` exactly when
`t_start + k * dt` first exceeds `t_end`. -/
theorem C7_step_schedule (tstart tEnd dt : ℚ) (hdt : 0 < dt) :
    (∀ k : ℕ, stepExecutes tstart tEnd dt k ↔ tstart + k * dt ≤ tEnd)
    ∧ (∀ k : ℕ, timeAt tstart dt (k + 1) = timeAt tstart dt k + dt)
    ∧ (tstart ≤ tEnd → stepExecutes tstart tEnd dt 0)
    ∧ MPMTerminates tstart tEnd dt
    ∧ (∀ k : ℕ, loopGuard tEnd (timeAt tstart dt k) = false ↔
        tEnd < tstart + k * dt) := by
  refine ⟨stepExecutes_iff tstart tEnd dt hdt,
    fun k => Function.iterate_succ_apply' (timeStep dt) k tstart, ?_,
    terminates_of_pos tstart tEnd dt hdt, ?_⟩
  · intro h
    rw [stepExecutes_iff tstart tEnd dt hdt]
    push_cast
    linarith
  · intro k
    rw [loopGuard_false_iff, timeAt_eq]

/-- C7 witness: at `t_start = 0`, `t_end = 2`, `dt = 1` the hypothesis
holds, the first step executes and the loop terminates. -/
theorem C7_step_schedule_witness :
    (0 : ℚ) < 1 ∧ stepExecutes 0 2 1 0 ∧ MPMTerminates 0 2 1 :=
  ⟨by norm_num, (C7_step_schedule 0 2 1 (by norm_num)).2.2.1 (by norm_num),
   (C7_step_schedule 0 2 1 (by norm_num)).2.2.2.1⟩

/-- C8: if within a step some stage raises an error at the state the
preceding stages produced, the whole step evaluates to that error: the
stages after the failing one (particle advection and the time advance
among them) are never applied, there is no retry, and the error is the
value surfaced to the caller. -/
theorem C8_stage_error_aborts {σ ε : Type} (impl : Stage → σ → Except ε σ)
    (isInit : Bool) (pre post : List Stage) (g : Stage) (s s1 : σ) (e : ε)
    (hsplit : stepStages isInit = pre ++ g :: post)
    (hpre : runStages (pre.map impl) s = Except.ok s1)
    (hfail : impl g s1 = Except.error e) :
    runStages ((stepStages isInit).map impl) s = Except.error e := by
  rw [hsplit, List.map_append, List.map_cons]
  exact runStages_error_of (pre.map impl) (impl g) (post.map impl) s s1 e
    hpre hfail

/-- A concrete stage implementation on counters in which the P2G mass
stage fails with error `7` and every other stage increments the state. -/
def failAtP2gMass : Stage → ℕ → Except ℕ ℕ := fun st n =>
  match st with
  | Stage.p2gMass => Except.error 7
  | _ => Except.ok (n + 1)

/-- C8 witness: a step whose P2G mass stage fails evaluates to that
error; advection is never reached. -/
theorem C8_stage_error_aborts_witness :
    runStages ((stepStages false).map failAtP2gMass) 0 = Except.error 7 :=
  C8_stage_error_aborts failAtP2gMass false [Stage.formulateBasis]
    [Stage.p2gVelocity, Stage.gridForces, Stage.gridAccel,
     Stage.gridVelocity, Stage.velocityGradient, Stage.defGradUpdate,
     Stage.volumeUpdate, Stage.stressUpdate, Stage.saveState, Stage.advect,
     Stage.advanceTime]
    Stage.p2gMass 0 1 7 rfl rfl rfl

/-- C9: every grid vector-field exchange performed by the driver reads
and writes exactly components `0` and `1` (never a third component), and
the dimensionality flag passed to the native model at construction is
the constant vector `[1, 1, 0]`. -/
theorem C9_two_dimensional_interface :
    (∀ l ∈ modelExchanges, l.map Access.comp = [0, 1])
    ∧ modelCoordArr = [1, 1, 0]
    ∧ modelCoordArr.length = 3 := by
  decide

/-- C10: the loop of `Model.mpm` terminates exactly when `dt > 0` or
`t_start > t_end`; and with `dt > 0` and `t_start = t_end` exactly one
step executes. -/
theorem C10_termination (tstart tEnd dt : ℚ) :
    (MPMTerminates tstart tEnd dt ↔ (0 < dt ∨ tEnd < tstart))
    ∧ (0 < dt → tstart = tEnd →
        stepExecutes tstart tEnd dt 0
        ∧ ∀ k : ℕ, 1 ≤ k → ¬ stepExecutes tstart tEnd dt k) := by
  constructor
  · constructor
    · rintro ⟨k, hk⟩
      rw [loopGuard_false_iff, timeAt_eq] at hk
      by_contra hcon
      push_neg at hcon
      obtain ⟨hdt, hts⟩ := hcon
      have hkd : (k : ℚ) * dt ≤ 0 :=
        mul_nonpos_of_nonneg_of_nonpos (Nat.cast_nonneg k) hdt
      linarith
    · rintro (hdt | hlt)
      · exact terminates_of_pos tstart tEnd dt hdt
      · refine ⟨0, ?_⟩
        rw [loopGuard_false_iff, timeAt_eq]
        push_cast
        linarith
  · intro hdt heq
    constructor
    · intro j hj
      have hj0 : j = 0 := Nat.le_zero.mp hj
      subst hj0
      rw [loopGuard_true_iff, timeAt_eq]
      push_cast
      linarith
    · intro k hk hex
      have h := hex k le_rfl
      rw [loopGuard_true_iff, timeAt_eq] at h
      have hk1 : (1 : ℚ) ≤ (k : ℚ) := by exact_mod_cast hk
      have : dt ≤ (k : ℚ) * dt := by nlinarith
      linarith

/-- C10 witness: with `t_start = t_end = 0` and `dt = 1` the loop
terminates, step zero executes and step one does not. -/
theorem C10_termination_witness :
    MPMTerminates 0 0 1 ∧ stepExecutes 0 0 1 0 ∧ ¬ stepExecutes 0 0 1 1 :=
  ⟨(C10_termination 0 0 1).1.mpr (Or.inl one_pos),
   ((C10_termination 0 0 1).2 one_pos rfl).1,
   ((C10_termination 0 0 1).2 one_pos rfl).2 1 le_rfl⟩
